import Mathlib

/-
  Verification of the workout-wizard recommendation core.

  The Python source is shallowly embedded: pure functions become Lean
  functions over ℚ (modelling IEEE floats by exact rationals), dicts become
  association lists, and the recommender's mutable state becomes explicit
  state passing.  External library kernels (sklearn cosine similarity,
  TF-IDF) are parameters of the state, with sklearn's documented input
  validation on the cosine call modelled explicitly; everything written in
  the repository itself is translated definitionally.
-/

namespace WorkoutWizard

/-! ## improvements/improve_goal_matching.py : ImprovedGoalMatcher -/

/-- Adjacency table GOAL_RELATIONSHIPS from improve_goal_matching.py. -/
def GOAL_RELATIONSHIPS : List (String × List String) :=
  [ ("Weight Loss", ["Fat Loss", "Cutting", "Lean", "Endurance", "General Fitness"]),
    ("Strength", ["Powerlifting", "Power", "Athletic Performance", "Athletics", "General Fitness"]),
    ("Hypertrophy", ["Muscle Building", "Bodybuilding", "Mass Gain", "Muscle & Sculpting", "Strength"]),
    ("General Fitness", ["Health", "Wellness", "Conditioning", "Weight Loss", "Endurance"]),
    ("Athletic Performance", ["Sports", "Power", "Speed", "Agility", "Athletics", "Strength", "General Fitness"]),
    ("Endurance", ["Cardio", "Stamina", "Conditioning", "Weight Loss", "Athletics"]),
    ("Bodybuilding", ["Hypertrophy", "Muscle & Sculpting", "Aesthetics", "Strength"]),
    ("Powerlifting", ["Strength", "Max Strength", "Power"]),
    ("Muscle & Sculpting", ["Bodybuilding", "Hypertrophy", "Strength"]),
    ("Bodyweight Fitness", ["General Fitness", "Athletics", "Strength"]),
    ("Athletics", ["Athletic Performance", "Strength", "Power", "Endurance"]) ]

/-- Pairwise table GOAL_COMPATIBILITY from improve_goal_matching.py. -/
def GOAL_COMPATIBILITY : List ((String × String) × ℚ) :=
  [ (("Weight Loss", "Endurance"), 9/10),
    (("Weight Loss", "Strength"), 7/10),
    (("Strength", "Hypertrophy"), 8/10),
    (("Strength", "Powerlifting"), 95/100),
    (("Hypertrophy", "Bodybuilding"), 95/100),
    (("Athletic Performance", "Strength"), 85/100),
    (("Athletic Performance", "Endurance"), 8/10) ]

/-- ImprovedGoalMatcher._are_related: checks the adjacency table in both
directions. -/
def areRelated (goal1 goal2 : String) : Bool :=
  (match GOAL_RELATIONSHIPS.lookup goal1 with
   | some rel => rel.contains goal2
   | none => false) ||
  (match GOAL_RELATIONSHIPS.lookup goal2 with
   | some rel => rel.contains goal1
   | none => false)

/-- ImprovedGoalMatcher._get_compatibility: looks the pair up in the
compatibility table in both orders, defaulting to 0. -/
def getCompatibility (goal1 goal2 : String) : ℚ :=
  match GOAL_COMPATIBILITY.lookup (goal1, goal2) with
  | some s => s
  | none =>
    match GOAL_COMPATIBILITY.lookup (goal2, goal1) with
    | some s => s
    | none => 0

/-- Python len(set(user_goals) & set(program_goals)). -/
def directMatchCount (user_goals program_goals : List String) : ℕ :=
  (user_goals.toFinset ∩ program_goals.toFinset).card

/-- ImprovedGoalMatcher.calculate_goal_match_score, translated clause by
clause: empty-list guard, direct-overlap branch, then the nested loop over
(user_goal, program_goal) pairs accumulating the best related/compatibility
score. -/
def calculateGoalMatchScore (user_goals program_goals : List String) : ℚ :=
  if user_goals = [] ∨ program_goals = [] then 0
  else
    let direct_matches := directMatchCount user_goals program_goals
    if 0 < direct_matches then min 1 (1/2 + (direct_matches : ℚ) * (3/10))
    else
      user_goals.foldl (fun acc user_goal =>
        program_goals.foldl (fun acc2 program_goal =>
          let acc3 := if areRelated user_goal program_goal then max acc2 (7/10) else acc2
          let compat_score := getCompatibility user_goal program_goal
          if acc3 < compat_score then compat_score else acc3) acc) 0

/-- Score one (user_goal, program_goal) pair contributes to the related-goal
loop: 0.7 when the adjacency table relates them, joined with the
compatibility-table score. -/
def pairScore (u p : String) : ℚ :=
  max (if areRelated u p then 7/10 else 0) (getCompatibility u p)

/-- Maximum of pairScore over all (user_goal, program_goal) pairs, with 0 as
the no-signal default. -/
def maxPairScore (user_goals program_goals : List String) : ℚ :=
  ((user_goals.flatMap fun u => program_goals.map fun p => pairScore u p)).foldl max 0

/-! ### foldl-max helper lemmas -/

lemma le_foldl_max_init (l : List ℚ) (init : ℚ) : init ≤ l.foldl max init := by
  induction l generalizing init with
  | nil => simp
  | cons x xs ih =>
    simp only [List.foldl_cons]
    exact le_trans (le_max_left init x) (ih (max init x))

lemma foldl_max_le (l : List ℚ) (init c : ℚ) (h0 : init ≤ c)
    (h : ∀ x ∈ l, x ≤ c) : l.foldl max init ≤ c := by
  induction l generalizing init with
  | nil => simpa using h0
  | cons x xs ih =>
    simp only [List.foldl_cons]
    exact ih (max init x) (max_le h0 (h x (List.mem_cons_self x xs)))
      (fun y hy => h y (List.mem_cons_of_mem x hy))

lemma le_foldl_max_of_mem (l : List ℚ) (init x : ℚ) (hx : x ∈ l) :
    x ≤ l.foldl max init := by
  induction l generalizing init with
  | nil => cases hx
  | cons y ys ih =>
    simp only [List.foldl_cons]
    rcases List.mem_cons.mp hx with h | h
    · exact h ▸ le_trans (le_max_right init x) (le_foldl_max_init ys (max init x))
    · exact ih (max init y) h

lemma lookup_mem {α β : Type _} [BEq α] [LawfulBEq α] {l : List (α × β)} {a : α} {b : β}
    (h : l.lookup a = some b) : (a, b) ∈ l := by
  induction l with
  | nil => simp at h
  | cons x xs ih =>
    obtain ⟨k, v⟩ := x
    rw [List.lookup_cons] at h
    cases hak : a == k with
    | true =>
      simp only [hak] at h
      have hb : v = b := by simpa using h
      have ha : a = k := eq_of_beq hak
      subst hb; subst ha
      exact List.mem_cons_self _ _
    | false =>
      simp only [hak] at h
      exact List.mem_cons_of_mem _ (ih h)

lemma getCompatibility_nonneg (g1 g2 : String) : 0 ≤ getCompatibility g1 g2 := by
  unfold getCompatibility
  cases h1 : GOAL_COMPATIBILITY.lookup (g1, g2) with
  | some s =>
    have hm := lookup_mem h1
    simp only [GOAL_COMPATIBILITY, List.mem_cons, List.not_mem_nil, or_false] at hm
    show 0 ≤ s
    rcases hm with h | h | h | h | h | h | h <;>
      (injection h with _ hv; rw [hv]; norm_num)
  | none =>
    cases h2 : GOAL_COMPATIBILITY.lookup (g2, g1) with
    | some s =>
      have hm := lookup_mem h2
      simp only [GOAL_COMPATIBILITY, List.mem_cons, List.not_mem_nil, or_false] at hm
      show 0 ≤ s
      rcases hm with h | h | h | h | h | h | h <;>
        (injection h with _ hv; rw [hv]; norm_num)
    | none => show (0:ℚ) ≤ 0; exact le_refl 0

lemma if_lt_eq_max (a c : ℚ) : (if a < c then c else a) = max a c := by
  rcases lt_or_le a c with h | h
  · rw [if_pos h, max_eq_right h.le]
  · rw [if_neg (not_lt.mpr h), max_eq_left h]

/-- The inner loop body of calculate_goal_match_score joins the accumulator
with pairScore. -/
lemma inner_step_eq (u p : String) (acc2 : ℚ) :
    (let acc3 := if areRelated u p then max acc2 (7/10) else acc2
     let compat_score := getCompatibility u p
     if acc3 < compat_score then compat_score else acc3) = max acc2 (pairScore u p) := by
  simp only [pairScore]
  cases hrel : areRelated u p with
  | true => simp only [hrel, if_true, if_lt_eq_max, max_assoc]
  | false =>
    simp only [hrel, Bool.false_eq_true, if_false, if_lt_eq_max,
      max_eq_right (getCompatibility_nonneg u p)]

lemma inner_fold_eq (u : String) (pg : List String) (acc : ℚ) :
    pg.foldl (fun acc2 p =>
      let acc3 := if areRelated u p then max acc2 (7/10) else acc2
      let compat_score := getCompatibility u p
      if acc3 < compat_score then compat_score else acc3) acc
    = (pg.map (pairScore u)).foldl max acc := by
  induction pg generalizing acc with
  | nil => rfl
  | cons p ps ih =>
    simp only [List.foldl_cons, List.map_cons]
    rw [inner_step_eq, ih]

lemma outer_fold_eq (ug pg : List String) (init : ℚ) :
    ug.foldl (fun acc u => (pg.map (pairScore u)).foldl max acc) init
    = ((ug.flatMap fun u => pg.map fun p => pairScore u p)).foldl max init := by
  induction ug generalizing init with
  | nil => rfl
  | cons u us ih => simp only [List.foldl_cons, List.flatMap_cons, List.foldl_append, ih]

/-- Characterization of calculate_goal_match_score: empty guard, direct
overlap branch, otherwise the maximum pairScore over all pairs. -/
lemma calc_eq_piecewise (ug pg : List String) :
    calculateGoalMatchScore ug pg =
      if ug = [] ∨ pg = [] then 0
      else if 0 < directMatchCount ug pg then
        min 1 (1/2 + (directMatchCount ug pg : ℚ) * (3/10))
      else maxPairScore ug pg := by
  unfold calculateGoalMatchScore maxPairScore
  by_cases h1 : ug = [] ∨ pg = []
  · simp [h1]
  · simp only [h1, if_false]
    by_cases h2 : 0 < directMatchCount ug pg
    · simp [h2]
    · simp only [h2, if_false]
      simp only [inner_fold_eq]
      exact outer_fold_eq ug pg 0

lemma maxPairScore_nonneg (ug pg : List String) : 0 ≤ maxPairScore ug pg :=
  le_foldl_max_init _ 0

lemma pairScore_mem_maxPairScore {ug pg : List String} {u p : String}
    (hu : u ∈ ug) (hp : p ∈ pg) : pairScore u p ≤ maxPairScore ug pg := by
  apply le_foldl_max_of_mem
  exact List.mem_flatMap.mpr ⟨u, hu, List.mem_map.mpr ⟨p, hp, rfl⟩⟩

lemma maxPairScore_le {ug pg : List String} {c : ℚ} (h0 : 0 ≤ c)
    (h : ∀ u ∈ ug, ∀ p ∈ pg, pairScore u p ≤ c) : maxPairScore ug pg ≤ c := by
  apply foldl_max_le _ _ _ h0
  intro x hx
  rcases List.mem_flatMap.mp hx with ⟨u, hu, hx2⟩
  rcases List.mem_map.mp hx2 with ⟨p, hp, rfl⟩
  exact h u hu p hp

lemma areRelated_symm (g1 g2 : String) : areRelated g1 g2 = areRelated g2 g1 := by
  unfold areRelated
  exact Bool.or_comm _ _

lemma getCompatibility_symm (g1 g2 : String) :
    getCompatibility g1 g2 = getCompatibility g2 g1 := by
  unfold getCompatibility
  cases h1 : GOAL_COMPATIBILITY.lookup (g1, g2) with
  | none =>
    cases h2 : GOAL_COMPATIBILITY.lookup (g2, g1) <;> simp
  | some s =>
    cases h2 : GOAL_COMPATIBILITY.lookup (g2, g1) with
    | none => simp
    | some t =>
      exfalso
      have hm1 := lookup_mem h1
      have hm2 := lookup_mem h2
      simp only [GOAL_COMPATIBILITY, List.mem_cons, List.not_mem_nil, or_false,
        Prod.mk.injEq] at hm1 hm2
      rcases hm1 with ⟨⟨e1, e2⟩, _⟩ | ⟨⟨e1, e2⟩, _⟩ | ⟨⟨e1, e2⟩, _⟩ | ⟨⟨e1, e2⟩, _⟩ |
        ⟨⟨e1, e2⟩, _⟩ | ⟨⟨e1, e2⟩, _⟩ | ⟨⟨e1, e2⟩, _⟩ <;>
        (subst e1; subst e2;
         rcases hm2 with ⟨⟨f1, f2⟩, _⟩ | ⟨⟨f1, f2⟩, _⟩ | ⟨⟨f1, f2⟩, _⟩ | ⟨⟨f1, f2⟩, _⟩ |
           ⟨⟨f1, f2⟩, _⟩ | ⟨⟨f1, f2⟩, _⟩ | ⟨⟨f1, f2⟩, _⟩ <;>
           first
           | exact absurd f1 (by decide)
           | exact absurd f2 (by decide))

lemma pairScore_symm (u p : String) : pairScore u p = pairScore p u := by
  unfold pairScore
  rw [areRelated_symm, getCompatibility_symm]

lemma maxPairScore_symm (ug pg : List String) :
    maxPairScore ug pg = maxPairScore pg ug := by
  apply le_antisymm
  · apply maxPairScore_le (maxPairScore_nonneg pg ug)
    intro u hu p hp
    rw [pairScore_symm]
    exact pairScore_mem_maxPairScore hp hu
  · apply maxPairScore_le (maxPairScore_nonneg ug pg)
    intro p hp u hu
    rw [pairScore_symm]
    exact pairScore_mem_maxPairScore hu hp

lemma directMatchCount_symm (a b : List String) :
    directMatchCount a b = directMatchCount b a := by
  unfold directMatchCount
  rw [Finset.inter_comm]

/-- C3: the rule-based goal match score is min(1, 0.5 + 0.3k) when the direct
overlap count k is positive, otherwise the maximum over all (user_goal,
program_goal) pairs of the 0.7 adjacency-relation score joined with the
compatibility-table score, and 0.0 when either list is empty or when no pair
carries any signal. -/
theorem goal_match_score_cases (ug pg : List String) :
    (calculateGoalMatchScore ug pg =
      if ug = [] ∨ pg = [] then 0
      else if 0 < directMatchCount ug pg then
        min 1 (1/2 + (directMatchCount ug pg : ℚ) * (3/10))
      else maxPairScore ug pg)
    ∧ ((∀ u ∈ ug, ∀ p ∈ pg, areRelated u p = false ∧ getCompatibility u p = 0) →
        directMatchCount ug pg = 0 →
        calculateGoalMatchScore ug pg = 0) := by
  refine ⟨calc_eq_piecewise ug pg, fun hsig hk => ?_⟩
  rw [calc_eq_piecewise]
  by_cases h1 : ug = [] ∨ pg = []
  · rw [if_pos h1]
  · rw [if_neg h1, hk, if_neg (lt_irrefl 0)]
    apply le_antisymm _ (maxPairScore_nonneg ug pg)
    apply maxPairScore_le le_rfl
    intro u hu p hp
    have := hsig u hu p hp
    simp [pairScore, this.1, this.2]

/-- Witness for C3 at concrete goal lists with no signal. -/
theorem goal_match_score_cases_witness :
    calculateGoalMatchScore ["Strength"] ["Cardio"] = 0 := by
  apply (goal_match_score_cases ["Strength"] ["Cardio"]).2
  · decide
  · decide

/-- C10: the rule-based goal match score is symmetric in its two goal-list
arguments. -/
theorem goal_match_score_symm (A B : List String) :
    calculateGoalMatchScore A B = calculateGoalMatchScore B A := by
  rw [calc_eq_piecewise, calc_eq_piecewise, directMatchCount_symm B A,
    maxPairScore_symm B A]
  by_cases h : A = [] ∨ B = []
  · rw [if_pos h, if_pos (or_comm.mp h)]
  · rw [if_neg h, if_neg (fun hc => h (or_comm.mp hc))]

/-! ## improvements/user_feedback.py : UserFeedbackSystem -/

/-- One record of UserFeedbackSystem.feedback_data (metadata omitted: it is
never read by the scoring path). feedback_type stores the FeedbackType enum
value string ("liked", "disliked", "completed", ...). -/
structure FeedbackEntry where
  program_id : String
  feedback_type : String
  rating : Option ℤ
  timestamp : ℤ
deriving DecidableEq

/-- The feedback_data dict: user_id → list of entries, append-only. -/
def FeedbackData := List (String × List FeedbackEntry)

/-- UserFeedbackSystem.get_user_preferences result dict (present only when
the user has history). -/
structure UserPreferences where
  liked_programs : List String
  completed_programs : List String
  disliked_programs : List String
  total_interactions : ℕ
deriving DecidableEq

/-- Loop body of get_user_preferences: route the entry id into one of the
three lists by feedback type. -/
def prefStep (acc : List String × List String × List String) (e : FeedbackEntry) :
    List String × List String × List String :=
  if e.feedback_type == "liked" then (acc.1 ++ [e.program_id], acc.2.1, acc.2.2)
  else if e.feedback_type == "completed" then (acc.1, acc.2.1 ++ [e.program_id], acc.2.2)
  else if e.feedback_type == "disliked" then (acc.1, acc.2.1, acc.2.2 ++ [e.program_id])
  else acc

/-- UserFeedbackSystem.get_user_preferences: none when the user_id has no
history (the Python code returns the empty dict). -/
def getUserPreferences (data : FeedbackData) (user_id : String) :
    Option UserPreferences :=
  match List.lookup user_id data with
  | none => none
  | some user_feedback =>
    let acc := user_feedback.foldl prefStep ([], [], [])
    some { liked_programs := acc.1
           completed_programs := acc.2.1
           disliked_programs := acc.2.2
           total_interactions := user_feedback.length }

/-- UserFeedbackSystem.adjust_recommendation_score: the Python .get(key, [])
on the empty preferences dict yields [], so every membership test fails for
an unknown user. -/
def adjustRecommendationScore (data : FeedbackData) (user_id program_id : String)
    (base_score : ℚ) : ℚ :=
  match getUserPreferences data user_id with
  | none => base_score
  | some prefs =>
    if prefs.liked_programs.contains program_id then base_score * (15/10)
    else if prefs.disliked_programs.contains program_id then base_score * (3/10)
    else if prefs.completed_programs.contains program_id then base_score * (11/10)
    else base_score

/-- The user previously gave feedback of the given type on the program. -/
def hasFB (entries : List FeedbackEntry) (ty pid : String) : Bool :=
  entries.any fun e => e.feedback_type == ty && e.program_id == pid

lemma prefStep_fold_eq (entries : List FeedbackEntry)
    (acc : List String × List String × List String) :
    entries.foldl prefStep acc =
      (acc.1 ++ (entries.filter fun e => e.feedback_type == "liked").map
          (fun e => e.program_id),
       acc.2.1 ++ (entries.filter fun e => e.feedback_type == "completed").map
          (fun e => e.program_id),
       acc.2.2 ++ (entries.filter fun e => e.feedback_type == "disliked").map
          (fun e => e.program_id)) := by
  induction entries generalizing acc with
  | nil => simp
  | cons e es ih =>
    simp only [List.foldl_cons, List.filter_cons]
    by_cases h1 : e.feedback_type = "liked"
    · simp [prefStep, h1, ih, List.append_assoc]
    · by_cases h2 : e.feedback_type = "completed"
      · simp [prefStep, h1, h2, ih, List.append_assoc]
      · by_cases h3 : e.feedback_type = "disliked"
        · simp [prefStep, h1, h2, h3, ih, List.append_assoc]
        · simp [prefStep, h1, h2, h3, ih]

lemma contains_filter_map (entries : List FeedbackEntry) (ty pid : String) :
    (((entries.filter fun e => e.feedback_type == ty).map
        (fun e => e.program_id)).contains pid) = hasFB entries ty pid := by
  induction entries with
  | nil => rfl
  | cons e es ih =>
    simp only [hasFB, List.any_cons, List.filter_cons]
    by_cases h : e.feedback_type = ty
    · have hb : (e.feedback_type == ty) = true := by simp [h]
      rw [if_pos hb]
      simp only [List.map_cons, List.contains_cons, hb, Bool.true_and]
      rw [ih]
      have hc : (pid == e.program_id) = (e.program_id == pid) := by
        simp [beq_iff_eq, eq_comm]
      rw [hc]
      rfl
    · have hb : (e.feedback_type == ty) = false := by simp [h]
      rw [if_neg (by simp [hb]), ih, hb]
      simp [hasFB]

/-- C4: the feedback adjustment multiplies the base score by 1.5 for a
previously liked program, else 0.3 for a disliked one, else 1.1 for a
completed one, and leaves it unchanged otherwise; in particular a user_id
with no feedback history leaves the score unchanged.  (Mutation-freedom is
structural here: adjustRecommendationScore is a function of the feedback
snapshot and returns only the adjusted score.) -/
theorem adjust_score_cases (data : FeedbackData) (uid pid : String) (s : ℚ) :
    (adjustRecommendationScore data uid pid s =
      (let entries := (List.lookup uid data).getD []
       if hasFB entries "liked" pid then s * (15/10)
       else if hasFB entries "disliked" pid then s * (3/10)
       else if hasFB entries "completed" pid then s * (11/10)
       else s))
    ∧ (List.lookup uid data = none → adjustRecommendationScore data uid pid s = s) := by
  constructor
  · unfold adjustRecommendationScore getUserPreferences
    cases hl : List.lookup uid data with
    | none => simp [hasFB]
    | some entries =>
      simp only [Option.getD_some]
      rw [prefStep_fold_eq]
      simp only [List.nil_append, contains_filter_map]
  · intro h
    unfold adjustRecommendationScore getUserPreferences
    rw [h]

/-- Witness for C4: a user with no history sees an unchanged score, and a
liked program is boosted by 1.5. -/
theorem adjust_score_cases_witness :
    adjustRecommendationScore [] "nobody" "P001" (4/5) = 4/5 :=
  (adjust_score_cases [] "nobody" "P001" (4/5)).2 rfl

/-! ## recommender.py : _diversify_recommendations -/

/-- One row of the recommendations DataFrame as it enters
_diversify_recommendations (all columns the method reads or carries). -/
structure RecRow where
  program_id : String
  title : String
  primary_level : String
  primary_goal : String
  equipment : String
  program_length : ℚ
  time_per_workout : ℚ
  workout_frequency : ℚ
  training_style : String
  match_score : ℚ
  match_percentage : ℤ
deriving DecidableEq

/-- Python int() truncates toward zero. -/
def pyInt (q : ℚ) : ℤ := if 0 ≤ q then ⌊q⌋ else ⌈q⌉

/-- The diversity penalty of the claim, as one product: (1-d) per repeated
attribute among style and goal and (1 - d*0.5) for repeated equipment,
applied to the row's match_percentage and truncated back to int. -/
def penRow (d : ℚ) (repStyle repGoal repEquip : Bool) (r : RecRow) : RecRow :=
  { r with match_percentage :=
      pyInt ((r.match_percentage : ℚ) *
        ((if repStyle then 1 - d else 1) * (if repGoal then 1 - d else 1) *
         (if repEquip then 1 - d * (1/2) else 1))) }

/-- The loop of _diversify_recommendations: walk in rank order, penalize
against the already-seen attribute sets, then record this row's attributes
as seen. -/
def diversifyWalk (d : ℚ) :
    List RecRow → List String → List String → List String → List RecRow
  | [], _, _, _ => []
  | program :: rest, seen_styles, seen_goals, seen_equipment =>
    let penalty : ℚ := 1
    let penalty := if seen_styles.contains program.training_style then
        penalty * (1 - d) else penalty
    let penalty := if seen_goals.contains program.primary_goal then
        penalty * (1 - d) else penalty
    let penalty := if seen_equipment.contains program.equipment then
        penalty * (1 - d * (1/2)) else penalty
    { program with
        match_percentage := pyInt ((program.match_percentage : ℚ) * penalty) } ::
      diversifyWalk d rest (program.training_style :: seen_styles)
        (program.primary_goal :: seen_goals) (program.equipment :: seen_equipment)

/-- Pandas sort_values('match_percentage', ascending=False), modelled as a
deterministic comparison sort by descending match_percentage. -/
def sortByPctDesc (l : List RecRow) : List RecRow :=
  List.insertionSort (fun a b => b.match_percentage ≤ a.match_percentage) l

/-- FitnessRecommender._diversify_recommendations. -/
def diversifyRecommendations (recs : List RecRow) (d : ℚ) : List RecRow :=
  sortByPctDesc (diversifyWalk d recs [] [] [])

lemma contains_append (l1 l2 : List String) (x : String) :
    (l1 ++ l2).contains x = (l1.contains x || l2.contains x) := by
  simp [List.contains_eq_any_beq, List.any_append]

lemma contains_middle (a : String) (l1 l2 : List String) (x : String) :
    ((a :: l1) ++ l2).contains x = (l1 ++ (a :: l2)).contains x := by
  simp only [List.cons_append, List.contains_cons, contains_append,
    Bool.or_assoc, Bool.or_left_comm]

lemma step_eq_penRow (d : ℚ) (ss sg se : List String) (r : RecRow) :
    (let penalty : ℚ := 1
     let penalty := if ss.contains r.training_style then penalty * (1 - d) else penalty
     let penalty := if sg.contains r.primary_goal then penalty * (1 - d) else penalty
     let penalty := if se.contains r.equipment then penalty * (1 - d * (1/2)) else penalty
     { r with match_percentage := pyInt ((r.match_percentage : ℚ) * penalty) })
    = penRow d (ss.contains r.training_style) (sg.contains r.primary_goal)
        (se.contains r.equipment) r := by
  unfold penRow
  by_cases h1 : ss.contains r.training_style <;>
    by_cases h2 : sg.contains r.primary_goal <;>
      by_cases h3 : se.contains r.equipment <;>
        simp only [h1, h2, h3, if_true, if_false, Bool.false_eq_true, RecRow.mk.injEq,
          and_true, true_and] <;>
        (congr 1; ring)

lemma diversifyWalk_eq (d : ℚ) (recs : List RecRow) :
    ∀ ss sg se : List String,
    diversifyWalk d recs ss sg se =
      recs.mapIdx fun i r =>
        penRow d
          ((ss ++ (recs.take i).map fun x => x.training_style).contains r.training_style)
          ((sg ++ (recs.take i).map fun x => x.primary_goal).contains r.primary_goal)
          ((se ++ (recs.take i).map fun x => x.equipment).contains r.equipment) r := by
  induction recs with
  | nil => intro ss sg se; rfl
  | cons r rest ih =>
    intro ss sg se
    rw [List.mapIdx_cons]
    show (let penalty : ℚ := 1
          let penalty := if ss.contains r.training_style then penalty * (1 - d) else penalty
          let penalty := if sg.contains r.primary_goal then penalty * (1 - d) else penalty
          let penalty := if se.contains r.equipment then penalty * (1 - d * (1/2)) else penalty
          { r with match_percentage := pyInt ((r.match_percentage : ℚ) * penalty) }) ::
          diversifyWalk d rest (r.training_style :: ss) (r.primary_goal :: sg)
            (r.equipment :: se) = _
    rw [step_eq_penRow]
    congr 1
    · simp
    · rw [ih]
      apply congrArg (fun f => List.mapIdx f rest)
      funext i x
      simp only [List.take_succ_cons, List.map_cons, contains_middle]

/-- C5: _diversify_recommendations walks candidates in rank order,
multiplies a candidate's match percentage by (1-diversity_factor) once for
a repeated training style and once for a repeated goal and by
(1 - diversity_factor*0.5) for repeated equipment — repetition measured
against the attributes of the strictly earlier candidates — truncates to
int, and re-sorts the penalized list descending by the adjusted value;
the output is a sorted permutation of the penalized list. -/
theorem diversify_recommendations_spec (recs : List RecRow) (d : ℚ) :
    (diversifyRecommendations recs d =
      sortByPctDesc (recs.mapIdx fun i r =>
        penRow d
          (((recs.take i).map fun x => x.training_style).contains r.training_style)
          (((recs.take i).map fun x => x.primary_goal).contains r.primary_goal)
          (((recs.take i).map fun x => x.equipment).contains r.equipment) r))
    ∧ (diversifyRecommendations recs d).Sorted
        (fun a b => b.match_percentage ≤ a.match_percentage)
    ∧ (diversifyRecommendations recs d).Perm
        (recs.mapIdx fun i r =>
          penRow d
            (((recs.take i).map fun x => x.training_style).contains r.training_style)
            (((recs.take i).map fun x => x.primary_goal).contains r.primary_goal)
            (((recs.take i).map fun x => x.equipment).contains r.equipment) r) := by
  haveI ht : IsTotal RecRow (fun a b => b.match_percentage ≤ a.match_percentage) :=
    ⟨fun a b => le_total b.match_percentage a.match_percentage⟩
  haveI htr : IsTrans RecRow (fun a b => b.match_percentage ≤ a.match_percentage) :=
    ⟨fun _ _ _ hab hbc => le_trans hbc hab⟩
  have hkey : diversifyWalk d recs [] [] [] =
      recs.mapIdx fun i r =>
        penRow d
          (((recs.take i).map fun x => x.training_style).contains r.training_style)
          (((recs.take i).map fun x => x.primary_goal).contains r.primary_goal)
          (((recs.take i).map fun x => x.equipment).contains r.equipment) r := by
    rw [diversifyWalk_eq]
    simp only [List.nil_append]
  refine ⟨?_, ?_, ?_⟩
  · unfold diversifyRecommendations
    rw [hkey]
  · exact List.sorted_insertionSort _ _
  · unfold diversifyRecommendations sortByPctDesc
    rw [hkey]
    exact List.perm_insertionSort _ _

/-! ## recommender.py : the recommendation cache

The _cache dict and the _cache_timestamps dict are modelled as a single
insertion-ordered association list from fingerprint to (result, inserted
time); Python dict assignment keeps the position of an existing key and
appends a new one at the end, so the head of the list is the
oldest-inserted entry. -/

/-- Cache lookup (recommender.py lines 347-362): a present entry strictly
inside the TTL window is a hit; an expired entry is deleted and the lookup
is a miss. -/
def cacheLookup {α : Type} (ttl now : ℤ) (key : String)
    (st : List (String × α × ℤ)) : Option α × List (String × α × ℤ) :=
  match List.lookup key st with
  | none => (none, st)
  | some (r, t) =>
    if now - t < ttl then (some r, st)
    else (none, st.filter fun e => !(e.1 == key))

/-- Cache store (recommender.py lines 464-474): dict assignment (replace in
place for an existing key, append for a new one), then evict the
oldest-inserted entry when the size bound is exceeded. -/
def cacheStore {α : Type} (maxSize : ℕ) (key : String) (r : α) (now : ℤ)
    (st : List (String × α × ℤ)) : List (String × α × ℤ) :=
  let st1 := if (st.map Prod.fst).contains key then
      st.map fun e => if e.1 = key then (key, r, now) else e
    else st ++ [(key, r, now)]
  if maxSize < st1.length then st1.drop 1 else st1

lemma contains_iff_mem (l : List String) (x : String) :
    l.contains x = true ↔ x ∈ l := by
  simp [List.contains_eq_any_beq, List.any_eq_true, beq_iff_eq, eq_comm]

lemma map_fst_replace {α : Type} (st : List (String × α × ℤ)) (key : String)
    (r : α) (now : ℤ) :
    ((st.map fun e => if e.1 = key then (key, r, now) else e).map Prod.fst)
      = st.map Prod.fst := by
  rw [List.map_map]
  apply List.map_congr_left
  intro e _
  by_cases h : e.1 = key <;> simp [h]

/-- C6: (1) a lookup of an entry whose age has reached the TTL is a miss and
evicts exactly that entry; (2) an insertion into a full cache with a fresh
fingerprint evicts the single oldest-inserted entry; (3) storing under an
existing fingerprint replaces, so any entry carrying the stored fingerprint
holds the newly stored result; (4) storing preserves key uniqueness (at most
one stored result per fingerprint). -/
theorem cache_spec {α : Type} :
    (∀ (st : List (String × α × ℤ)) (key : String) (r : α) (t ttl now : ℤ),
      List.lookup key st = some (r, t) → ttl ≤ now - t →
      cacheLookup ttl now key st = (none, st.filter fun e => !(e.1 == key)))
    ∧ (∀ (st : List (String × α × ℤ)) (key : String) (r : α) (now : ℤ),
      (st.map Prod.fst).contains key = false → 1000 ≤ st.length →
      cacheStore 1000 key r now st = st.tail ++ [(key, r, now)])
    ∧ (∀ (st : List (String × α × ℤ)) (maxSize : ℕ) (key : String) (r : α)
        (now : ℤ), ∀ e ∈ cacheStore maxSize key r now st, e.1 = key →
        e = (key, r, now))
    ∧ (∀ (st : List (String × α × ℤ)) (maxSize : ℕ) (key : String) (r : α)
        (now : ℤ), (st.map Prod.fst).Nodup →
        ((cacheStore maxSize key r now st).map Prod.fst).Nodup) := by
  refine ⟨?_, ?_, ?_, ?_⟩
  · intro st key r t ttl now hl hexp
    unfold cacheLookup
    rw [hl]
    simp only [if_neg (not_lt.mpr hexp)]
  · intro st key r now hc hlen
    unfold cacheStore
    simp only [hc, Bool.false_eq_true, if_false]
    have hlen2 : 1000 < (st ++ [(key, r, now)]).length := by
      simp only [List.length_append, List.length_singleton]
      omega
    rw [if_pos hlen2, List.drop_append_of_le_length (by omega), List.drop_one]
  · intro st maxSize key r now e he hk
    have he1 : e ∈ (if (st.map Prod.fst).contains key then
        st.map fun x => if x.1 = key then (key, r, now) else x
      else st ++ [(key, r, now)]) := by
      unfold cacheStore at he
      by_cases hd : maxSize < (if (st.map Prod.fst).contains key then
          st.map fun x => if x.1 = key then (key, r, now) else x
        else st ++ [(key, r, now)]).length
      · rw [if_pos hd] at he
        exact List.mem_of_mem_drop he
      · rwa [if_neg hd] at he
    by_cases hc : (st.map Prod.fst).contains key
    · rw [if_pos hc] at he1
      rcases List.mem_map.mp he1 with ⟨x, _, hx⟩
      by_cases hxk : x.1 = key
      · rw [if_pos hxk] at hx
        exact hx.symm
      · rw [if_neg hxk] at hx
        exact absurd (hx ▸ hk) hxk
    · rw [if_neg hc] at he1
      rcases List.mem_append.mp he1 with h | h
      · exfalso
        apply hc
        exact (contains_iff_mem _ _).mpr (hk ▸ List.mem_map_of_mem Prod.fst h)
      · simpa using h
  · intro st maxSize key r now hn
    unfold cacheStore
    have hbase : ∀ l : List (String × α × ℤ), (l.map Prod.fst).Nodup →
        (((if maxSize < l.length then l.drop 1 else l)).map Prod.fst).Nodup := by
      intro l hl
      by_cases hd : maxSize < l.length
      · rw [if_pos hd, List.map_drop]
        exact (List.drop_sublist 1 _).nodup hl
      · rwa [if_neg hd]
    by_cases hc : (st.map Prod.fst).contains key
    · simp only [hc, if_true]
      apply hbase
      rw [map_fst_replace]
      exact hn
    · simp only [hc, Bool.false_eq_true, if_false]
      apply hbase
      rw [List.map_append]
      refine List.Nodup.append hn (by simp) ?_
      intro x hx hx2
      simp only [List.map_cons, List.map_nil, List.mem_singleton] at hx2
      subst hx2
      exact absurd ((contains_iff_mem _ _).mpr hx) (by simpa using hc)

/-- Witness for C6 at concrete ℕ-valued caches, discharging every
hypothesis of cache_spec. -/
theorem cache_spec_witness :
    cacheLookup (α := ℕ) 3600 5000 "k1" [("k1", 7, 0), ("k2", 8, 4000)]
      = (none, [("k2", 8, 4000)])
    ∧ cacheStore (α := ℕ) 1000 "k" 9 5 (List.replicate 1000 ("a", 0, 0))
        = (List.replicate 1000 ("a", (0:ℕ), (0:ℤ))).tail ++ [("k", 9, 5)]
    ∧ ("k1", 9, 5000) = ("k1", (9:ℕ), (5000:ℤ))
    ∧ ((cacheStore (α := ℕ) 2 "k1" 9 5000 [("k1", 7, 0), ("k2", 8, 4000)]).map
          Prod.fst).Nodup := by
  refine ⟨?_, ?_, ?_, ?_⟩
  · have h := (cache_spec (α := ℕ)).1 [("k1", 7, 0), ("k2", 8, 4000)] "k1" 7 0 3600 5000
      (by decide) (by decide)
    rw [h]
    decide
  · exact (cache_spec (α := ℕ)).2.1 (List.replicate 1000 ("a", 0, 0)) "k" 9 5
      (by
        rw [List.map_replicate, Bool.eq_false_iff]
        intro h
        have hm := (contains_iff_mem _ _).mp h
        rw [List.mem_replicate] at hm
        exact absurd hm.2 (by decide))
      (by rw [List.length_replicate])
  · exact (cache_spec (α := ℕ)).2.2.1 [("k1", 7, 0), ("k2", 8, 4000)] 2 "k1" 9 5000
      ("k1", 9, 5000) (by decide) rfl
  · exact (cache_spec (α := ℕ)).2.2.2 [("k1", 7, 0), ("k2", 8, 4000)] 2 "k1" 9 5000
      (by decide)

/-! ## config.py constants and data/schemas.py validation -/

def VALID_FITNESS_LEVELS : List String :=
  ["Beginner", "Novice", "Intermediate", "Advanced"]

def VALID_GOALS : List String :=
  ["General Fitness", "Weight Loss", "Strength", "Hypertrophy",
   "Bodybuilding", "Powerlifting", "Athletics", "Endurance",
   "Muscle & Sculpting", "Bodyweight Fitness", "Athletic Performance"]

def VALID_EQUIPMENT : List String :=
  ["At Home", "Dumbbell Only", "Full Gym", "Garage Gym"]

def VALID_DURATIONS : List String :=
  ["30-45 min", "45-60 min", "60-75 min", "75-90 min", "90+ min"]

def VALID_TRAINING_STYLES : List String :=
  ["Full Body", "Upper/Lower", "Push/Pull/Legs", "Body Part Split", "No preference"]

def DURATION_MAP : List (String × ℚ) :=
  [("30-45 min", 40), ("45-60 min", 55), ("60-75 min", 70),
   ("75-90 min", 85), ("90+ min", 100)]

def LEVEL_TO_LENGTH : List (String × ℚ) :=
  [("Beginner", 4), ("Novice", 8), ("Intermediate", 12), ("Advanced", 16)]

def LEVEL_TO_INTENSITY : List (String × ℚ) :=
  [("Beginner", 0), ("Novice", 1), ("Intermediate", 2), ("Advanced", 3)]

def TRAINING_STYLE_MAP : List (String × String) :=
  [("Full Body", "Full Body"), ("Upper/Lower", "Upper/Lower"),
   ("Push/Pull/Legs", "Push/Pull/Legs"), ("Body Part Split", "Body Part Split"),
   ("No preference", "Other")]

def DEFAULT_CONTENT_WEIGHT : ℚ := 1

def DEFAULT_COLLAB_WEIGHT : ℚ := 0

/-- schemas.py UserProfile field data (before/after validation; the pydantic
validators return the value unchanged when it passes). -/
structure UserProfile where
  fitness_level : String
  goals : List String
  equipment : String
  preferred_duration : Option String
  preferred_frequency : Option ℤ
  preferred_style : Option String
  user_id : Option String
deriving DecidableEq

/-- Pydantic construction of UserProfile: Field(min_length=1) on goals,
Field(ge=1, le=7) on preferred_frequency, and the five field_validator
checks; construction raises (returns error) when any check fails. -/
def validateUserProfile (p : UserProfile) : Except String UserProfile :=
  if ¬ VALID_FITNESS_LEVELS.contains p.fitness_level then
    Except.error "fitness_level not in allowed list"
  else if p.goals.length < 1 then Except.error "goals requires at least one entry"
  else if ¬ p.goals.all (fun g => VALID_GOALS.contains g) then
    Except.error "goal not recognized"
  else if ¬ VALID_EQUIPMENT.contains p.equipment then
    Except.error "equipment not in allowed list"
  else if (match p.preferred_duration with
           | some v => !(VALID_DURATIONS.contains v)
           | none => false) then Except.error "preferred_duration not in allowed list"
  else if (match p.preferred_frequency with
           | some v => decide (v < 1) || decide (7 < v)
           | none => false) then Except.error "preferred_frequency out of range"
  else if (match p.preferred_style with
           | some v => !(VALID_TRAINING_STYLES.contains v)
           | none => false) then Except.error "preferred_style not in allowed list"
  else Except.ok p

/-! ## data/preprocessing.py -/

/-- Engineered per-user features produced by process_user_features. -/
structure ProcessedUser where
  primary_level : String
  primary_goal : String
  equipment : String
  training_style : String
  program_length : ℚ
  time_per_workout : ℚ
  workout_frequency : ℚ
  intensity_score : ℚ
deriving DecidableEq

/-- calculate_intensity_score: frequency plus a duration-bucket bonus plus a
level bonus, capped at 10. -/
def calculateIntensityScore (workout_frequency time_per_workout : ℚ)
    (primary_level : String) : ℚ :=
  let intensity := workout_frequency
  let intensity := intensity +
    (if time_per_workout < 45 then 0
     else if time_per_workout < 60 then 1
     else if time_per_workout < 90 then 2
     else 3)
  let intensity := intensity + ((LEVEL_TO_INTENSITY.lookup primary_level).getD 1)
  min 10 intensity

/-- process_user_features.  Python truthiness: an empty-string optional field
counts as missing (the `or` fallback). -/
def processUserFeatures (p : UserProfile) : ProcessedUser :=
  let primary_goal := match p.goals with
    | g :: _ => g
    | [] => "General Fitness"
  let primary_level := p.fitness_level
  let duration := match p.preferred_duration with
    | some d => if d = "" then "45-60 min" else d
    | none => "45-60 min"
  let time_per_workout := (DURATION_MAP.lookup duration).getD 60
  let workout_frequency : ℚ := match p.preferred_frequency with
    | some f => if f = 0 then 4 else (f : ℚ)
    | none => 4
  let style := match p.preferred_style with
    | some v => if v = "" then "No preference" else v
    | none => "No preference"
  let training_style := (TRAINING_STYLE_MAP.lookup style).getD "Other"
  let program_length := (LEVEL_TO_LENGTH.lookup primary_level).getD 8
  { primary_level := primary_level
    primary_goal := primary_goal
    equipment := p.equipment
    training_style := training_style
    program_length := program_length
    time_per_workout := time_per_workout
    workout_frequency := workout_frequency
    intensity_score :=
      calculateIntensityScore workout_frequency time_per_workout primary_level }

/-- The fitted ColumnTransformer: OneHotEncoder(handle_unknown='ignore')
categories for the four categorical features followed by StandardScaler
mean/scale parameters for the four numeric features, frozen at training
time. -/
structure Transformer where
  levelCats : List String
  goalCats : List String
  equipmentCats : List String
  styleCats : List String
  lengthMean : ℚ
  lengthScale : ℚ
  timeMean : ℚ
  timeScale : ℚ
  freqMean : ℚ
  freqScale : ℚ
  intensityMean : ℚ
  intensityScale : ℚ

/-- OneHotEncoder(handle_unknown='ignore') indicator row for one feature
group: a known category gets a single 1, an unknown value the all-zero
row. -/
def oneHot (cats : List String) (v : String) : List ℚ :=
  cats.map fun c => if c = v then 1 else 0

/-- StandardScaler.transform on one column with frozen parameters. -/
def scaleVal (mean scale x : ℚ) : ℚ := (x - mean) / scale

/-- Transformer.transform on the single-row user frame: categorical one-hot
blocks in CATEGORICAL_FEATURES order, then the scaled numeric columns in
NUMERIC_FEATURES order. -/
def encodeUserFeatures (t : Transformer) (u : ProcessedUser) : List ℚ :=
  oneHot t.levelCats u.primary_level ++ oneHot t.goalCats u.primary_goal ++
  oneHot t.equipmentCats u.equipment ++ oneHot t.styleCats u.training_style ++
  [scaleVal t.lengthMean t.lengthScale u.program_length,
   scaleVal t.timeMean t.timeScale u.time_per_workout,
   scaleVal t.freqMean t.freqScale u.workout_frequency,
   scaleVal t.intensityMean t.intensityScale u.intensity_score]

/-- The profile of the C9 claim: equipment "Spaceship Gym". -/
def spaceshipProfile : UserProfile :=
  { fitness_level := "Intermediate"
    goals := ["Strength"]
    equipment := "Spaceship Gym"
    preferred_duration := none
    preferred_frequency := none
    preferred_style := none
    user_id := none }

/-- C9 counterexample: a profile with unknown equipment is rejected by
pydantic validation (validate_equipment raises), so the recommendation call
does not proceed without raising as the claim states. -/
theorem unknown_equipment_rejected :
    validateUserProfile spaceshipProfile
      = Except.error "equipment not in allowed list" := by rfl

/-- C9 amended: UserProfile validation only accepts profiles whose equipment
is in VALID_EQUIPMENT (an unknown value raises a ValidationError before the
pipeline), while the fitted one-hot encoder itself maps any value outside
the trained category list to the all-zero indicator row (never an error),
and the full user encoding still produces a feature vector of the trained
width. -/
theorem unknown_equipment_amended :
    (∀ p q : UserProfile, validateUserProfile p = Except.ok q →
      VALID_EQUIPMENT.contains p.equipment = true)
    ∧ (∀ (cats : List String) (v : String), ¬ v ∈ cats →
        oneHot cats v = List.replicate cats.length 0)
    ∧ (∀ (t : Transformer) (u : ProcessedUser),
        (encodeUserFeatures t u).length =
          t.levelCats.length + t.goalCats.length + t.equipmentCats.length +
          t.styleCats.length + 4) := by
  refine ⟨?_, ?_, ?_⟩
  · intro p q h
    unfold validateUserProfile at h
    by_cases h4 : VALID_EQUIPMENT.contains p.equipment
    · exact h4
    · exfalso
      by_cases h1 : VALID_FITNESS_LEVELS.contains p.fitness_level
      · by_cases h2 : p.goals.length < 1
        · rw [if_neg (by simpa using h1), if_pos h2] at h
          exact Except.noConfusion h
        · by_cases h3 : p.goals.all (fun g => VALID_GOALS.contains g)
          · rw [if_neg (by simpa using h1), if_neg h2, if_neg (by simpa using h3),
              if_pos (by simpa using h4)] at h
            exact Except.noConfusion h
          · rw [if_neg (by simpa using h1), if_neg h2, if_pos (by simpa using h3)] at h
            exact Except.noConfusion h
      · rw [if_pos (by simpa using h1)] at h
        exact Except.noConfusion h
  · intro cats v hv
    unfold oneHot
    induction cats with
    | nil => rfl
    | cons c cs ih =>
      simp only [List.map_cons, List.length_cons, List.replicate_succ]
      rw [if_neg (fun hc : c = v => hv (by rw [← hc]; exact List.mem_cons_self c cs))]
      rw [ih (fun hm => hv (List.mem_cons_of_mem c hm))]
  · intro t u
    simp [encodeUserFeatures, oneHot, scaleVal]
    omega

/-- Witness for C9's amended theorem at concrete inputs: a valid profile
passes with listed equipment, and the unknown value "Spaceship Gym" encodes
to the zero row over the four trained equipment categories. -/
theorem unknown_equipment_amended_witness :
    VALID_EQUIPMENT.contains "Full Gym" = true
    ∧ oneHot VALID_EQUIPMENT "Spaceship Gym" = List.replicate 4 0 := by
  constructor
  · exact unknown_equipment_amended.1
      { fitness_level := "Intermediate", goals := ["Strength"],
        equipment := "Full Gym", preferred_duration := none,
        preferred_frequency := none, preferred_style := none, user_id := none }
      { fitness_level := "Intermediate", goals := ["Strength"],
        equipment := "Full Gym", preferred_duration := none,
        preferred_frequency := none, preferred_style := none, user_id := none }
      (by rfl)
  · exact unknown_equipment_amended.2.1 VALID_EQUIPMENT "Spaceship Gym" (by decide)

/-! ## recommender.py : _get_cache_key

json.dumps(profile.model_dump(), sort_keys=True) serializes the profile
fields in sorted key order; md5 of equal strings is equal, so the digest
step is dropped and the sorted serialization itself is the model of the
fingerprint. -/

def sortFields (l : List (String × String)) : List (String × String) :=
  List.insertionSort (fun a b => a.1 ≤ b.1) l

def serializeFields (l : List (String × String)) : String :=
  l.foldl (fun acc kv => acc ++ kv.1 ++ ":" ++ kv.2 ++ ";") ""

/-- Fingerprint of a profile presented as a (field name, serialized value)
association list. -/
def cacheKeyOfFields (l : List (String × String)) : String :=
  serializeFields (sortFields l)

/-- UserProfile.model_dump() as a (field, serialized value) association
list; pydantic emits every declared field. -/
def modelDump (p : UserProfile) : List (String × String) :=
  [("equipment", p.equipment),
   ("fitness_level", p.fitness_level),
   ("goals", String.intercalate "," p.goals),
   ("preferred_duration", p.preferred_duration.getD "null"),
   ("preferred_frequency",
     (match p.preferred_frequency with
      | some k => toString k
      | none => "null")),
   ("preferred_style", p.preferred_style.getD "null"),
   ("user_id", p.user_id.getD "null")]

/-- FitnessRecommender._get_cache_key. -/
def cacheKeyOfProfile (p : UserProfile) : String := cacheKeyOfFields (modelDump p)

/-! ## recommender.py : the recommendation pipeline -/

/-- One row of programs_df (the processed program catalog).  The goal column
holds a list (the code wraps a scalar goal into a one-element list before
use). -/
structure ProgramRec where
  program_id : String
  title : String
  primary_level : String
  primary_goal : String
  goal : List String
  equipment : String
  program_length : ℚ
  time_per_workout : ℚ
  workout_frequency : ℚ
  training_style : String
deriving DecidableEq

/-- One row of the result frame after the result_columns selection (the
match_score column is dropped). -/
structure ResultRow where
  program_id : String
  title : String
  primary_level : String
  primary_goal : String
  equipment : String
  program_length : ℚ
  time_per_workout : ℚ
  workout_frequency : ℚ
  training_style : String
  match_percentage : ℤ
deriving DecidableEq

/-- The loaded FitnessRecommender.  semanticSim stands for the sklearn
TF-IDF kernel of SemanticGoalMatcher.calculate_semantic_similarity and
cosSim for sklearn cosine_similarity: both are external library kernels,
carried as opaque function parameters of the state.  enhancements is
ENHANCEMENTS_AVAILABLE (goal matcher, semantic matcher and feedback system
are all present or all absent).  The hit/miss counters are observability
only and are omitted. -/
structure RecState where
  programs : List ProgramRec
  features : List (String × List ℚ)
  transformer : Transformer
  content_weight : ℚ
  collab_weight : ℚ
  enhancements : Bool
  semanticSim : List String → List String → ℚ
  cosSim : List ℚ → List ℚ → ℚ
  feedback : FeedbackData
  cache : List (String × List ResultRow × ℤ)
  cache_ttl : ℤ

/-- Python truthiness of user_profile.user_id: None and the empty string
are both falsy. -/
def pyUserId (p : UserProfile) : Option String :=
  match p.user_id with
  | some u => if u = "" then none else some u
  | none => none

/-- FitnessRecommender._calculate_enhanced_goal_score: 0.6/0.4 blend of the
rule-based and semantic scores, with the direct-overlap fallback when the
enhancement modules are unavailable. -/
def calculateEnhancedGoalScore (st : RecState)
    (user_goals program_goals : List String) : ℚ :=
  if ¬ st.enhancements then
    if user_goals = [] ∨ program_goals = [] then 0
    else min 1 ((directMatchCount user_goals program_goals : ℚ) / user_goals.length)
  else
    calculateGoalMatchScore user_goals program_goals * (6/10)
      + st.semanticSim user_goals program_goals * (4/10)

def simAt (sims : List ℚ) (i : ℕ) : ℚ := sims.getD i 0

def featIdAt (features : List (String × List ℚ)) (i : ℕ) : String :=
  (features.map Prod.fst).getD i ""

/-- The row of similarity values the sklearn call computes on a nonempty
program matrix: the cosine kernel of the user vector against every program
vector. -/
def contentSimilarities (st : RecState) (user_vector : List ℚ) : List ℚ :=
  st.features.map fun pr => st.cosSim user_vector pr.2

/-- The selection step of content_based_recommendations applied to a
computed similarity row: numpy argsort ascending, then the slice
[-top_n:][::-1] (for top_n = 0 the Python slice [-0:] is the whole list). -/
def contentSelection (st : RecState) (sims : List ℚ) (top_n : ℕ) :
    List (String × ℚ) :=
  let sortedIdxs := List.insertionSort
    (fun i j => simAt sims i ≤ simAt sims j) (List.range sims.length)
  let top_indices := if top_n = 0 then sortedIdxs.reverse
    else (sortedIdxs.drop (sortedIdxs.length - top_n)).reverse
  top_indices.map fun idx => (featIdAt st.features idx, simAt sims idx)

/-- The single sklearn cosine_similarity(user_vector, program_matrix) call
of content_based_recommendations, input validation included:
check_pairwise_arrays runs check_array on the program matrix with its
default ensure_min_samples=1 and raises ValueError on a 0-row matrix, so
the call is fallible; on a nonempty matrix it returns the kernel row. -/
def sklearnCosineSimilarity (st : RecState) (user_vector : List ℚ) :
    Except String (List ℚ) :=
  if st.features = [] then
    Except.error "Found array with 0 sample(s) while a minimum of 1 is required"
  else Except.ok (contentSimilarities st user_vector)

/-- FitnessRecommender.content_based_recommendations: one cosine_similarity
call on the whole program matrix — which raises (error) when the matrix has
no rows — then argsort and the top-N slice.  (The user_id-not-in-index guard
of the source cannot fire: the single-row user frame is built with that very
index.) -/
def contentBasedRecommendations (st : RecState) (user_vector : List ℚ)
    (top_n : ℕ) : Except String (List (String × ℚ)) :=
  match sklearnCosineSimilarity st user_vector with
  | Except.error e => Except.error e
  | Except.ok sims => Except.ok (contentSelection st sims top_n)

/-- On a nonempty catalog the fallible scorer succeeds with exactly the
selection over the kernel row. -/
lemma contentBasedRecommendations_ok (st : RecState) (user_vector : List ℚ)
    (top_n : ℕ) (h : st.features ≠ []) :
    contentBasedRecommendations st user_vector top_n =
      Except.ok (contentSelection st (contentSimilarities st user_vector) top_n) := by
  unfold contentBasedRecommendations sklearnCosineSimilarity
  rw [if_neg h]

/-- The score of one candidate inside the recommend loop: content similarity
weighted, blended 30/70 with the enhanced goal score when the goal matcher
is available and the program is in the catalog, then adjusted by user
feedback when enabled. -/
def candidateScore (st : RecState) (p : UserProfile) (content_weight : ℚ)
    (apply_feedback : Bool) (program_id : String) (similarity : ℚ) : ℚ :=
  let score := content_weight * similarity
  let score := match (if st.enhancements then
      st.programs.find? (fun x => x.program_id == program_id) else none) with
    | some program =>
      score * (3/10) + (calculateEnhancedGoalScore st p.goals program.goal) * (7/10)
    | none => score
  if apply_feedback ∧ st.enhancements ∧ (pyUserId p).isSome then
    adjustRecommendationScore st.feedback ((pyUserId p).getD "") program_id score
  else score

/-- Python dict(pairs) lookup: the last binding of a key wins. -/
def dictGet (l : List (String × ℚ)) (k : String) : Option ℚ :=
  List.lookup k l.reverse

/-- numpy/pandas .round(): round half to even. -/
def roundHalfEven (q : ℚ) : ℤ :=
  if q - ⌊q⌋ < 1/2 then ⌊q⌋
  else if 1/2 < q - ⌊q⌋ then ⌊q⌋ + 1
  else if Even ⌊q⌋ then ⌊q⌋ else ⌊q⌋ + 1

/-- The candidate list paired with its match_score column: candidates scored
and sorted, the top initial_count ids selected, the catalog filtered to them
in catalog order, and dict(sorted_recs) mapped over the program_id column.
This and the defs below model the pipeline on the non-raising path of the
similarity call (contentBasedRecommendations_ok); on an empty catalog the
source raises inside sklearn and recommend returns nothing (see the C8
theorem). -/
def coreWithScores (st : RecState) (p : UserProfile) (n : ℕ) (cw0 : Option ℚ)
    (div fb : Bool) : List (ProgramRec × ℚ) :=
  let content_weight := cw0.getD st.content_weight
  let user_vec := encodeUserFeatures st.transformer (processUserFeatures p)
  let multiplier : ℕ := if div then 3 else 2
  let content_recs := contentSelection st (contentSimilarities st user_vec)
    (n * multiplier)
  let rec_scores := content_recs.map fun pr =>
    (pr.1, candidateScore st p content_weight fb pr.1 pr.2)
  let sorted_recs := List.insertionSort (fun a b => b.2 ≤ a.2) rec_scores
  let initial_count := if div then n * 2 else n
  let top_programs := (sorted_recs.take initial_count).map Prod.fst
  let recommended := st.programs.filter fun x => top_programs.contains x.program_id
  recommended.map fun prog => (prog, (dictGet sorted_recs prog.program_id).getD 0)

/-- pandas Series.max over the match_score column (None on an empty
frame). -/
def coreMax (st : RecState) (p : UserProfile) (n : ℕ) (cw0 : Option ℚ)
    (div fb : Bool) : Option ℚ :=
  ((coreWithScores st p n cw0 div fb).map Prod.snd).max?

def mkRow (prog : ProgramRec) (s : ℚ) (pct : ℤ) : RecRow :=
  { program_id := prog.program_id
    title := prog.title
    primary_level := prog.primary_level
    primary_goal := prog.primary_goal
    equipment := prog.equipment
    program_length := prog.program_length
    time_per_workout := prog.time_per_workout
    workout_frequency := prog.workout_frequency
    training_style := prog.training_style
    match_score := s
    match_percentage := pct }

/-- The frame with the match_percentage column: (score / max * 100)
rounded and cast to int when the maximum score is positive, 0 otherwise
(an empty frame stays empty). -/
def coreRows (st : RecState) (p : UserProfile) (n : ℕ) (cw0 : Option ℚ)
    (div fb : Bool) : List RecRow :=
  match coreMax st p n cw0 div fb with
  | some m =>
    if 0 < m then
      (coreWithScores st p n cw0 div fb).map fun pr =>
        mkRow pr.1 pr.2 (roundHalfEven (pr.2 / m * 100))
    else
      (coreWithScores st p n cw0 div fb).map fun pr => mkRow pr.1 pr.2 0
  | none => []

/-- sort_values('match_score', ascending=False). -/
def coreSorted (st : RecState) (p : UserProfile) (n : ℕ) (cw0 : Option ℚ)
    (div fb : Bool) : List RecRow :=
  List.insertionSort (fun a b => b.match_score ≤ a.match_score)
    (coreRows st p n cw0 div fb)

/-- Diversity is applied only when requested and when there are more
candidates than requested. -/
def coreFinal (st : RecState) (p : UserProfile) (n : ℕ) (cw0 : Option ℚ)
    (div fb : Bool) : List RecRow :=
  if div ∧ n < (coreSorted st p n cw0 div fb).length then
    diversifyRecommendations (coreSorted st p n cw0 div fb) (3/10)
  else coreSorted st p n cw0 div fb

/-- result_columns selection: drop match_score. -/
def toResultRow (r : RecRow) : ResultRow :=
  { program_id := r.program_id
    title := r.title
    primary_level := r.primary_level
    primary_goal := r.primary_goal
    equipment := r.equipment
    program_length := r.program_length
    time_per_workout := r.time_per_workout
    workout_frequency := r.workout_frequency
    training_style := r.training_style
    match_percentage := r.match_percentage }

/-- FitnessRecommender.recommend without the cache wrapper (the
collaborative weight is resolved but dormant in the reference system, so it
does not appear in the scoring). -/
def recommendCore (st : RecState) (p : UserProfile) (n : ℕ) (cw0 : Option ℚ)
    (div fb : Bool) : List ResultRow :=
  ((coreFinal st p n cw0 div fb).map toResultRow).take n

/-- FitnessRecommender.recommend on a loaded model: cache lookup (with lazy
TTL eviction), recomputation on a miss, and the store with
oldest-entry eviction. -/
def recommend (st : RecState) (p : UserProfile) (n : ℕ) (cw0 : Option ℚ)
    (use_cache div fb : Bool) (now : ℤ) : List ResultRow × RecState :=
  if use_cache then
    let key := cacheKeyOfProfile p
    let lk := cacheLookup st.cache_ttl now key st.cache
    match lk.1 with
    | some res => (res.take n, { st with cache := lk.2 })
    | none =>
      let st1 : RecState := { st with cache := lk.2 }
      let result := recommendCore st1 p n cw0 div fb
      (result, { st1 with cache := cacheStore 1000 key result now lk.2 })
  else
    (recommendCore st p n cw0 div fb, st)

/-! ## C8: empty program catalog -/

/-- C8: with an empty collection of program vectors the similarity scorer
does not return an empty list: the single cosine_similarity call hands the
0-row program matrix to sklearn, whose input validation raises ValueError,
so the scorer raises — against the spec's requirement that it return []. -/
theorem content_recs_empty_catalog_raises (st : RecState) (uv : List ℚ)
    (tn : ℕ) (h : st.features = []) :
    contentBasedRecommendations st uv tn =
      Except.error
        "Found array with 0 sample(s) while a minimum of 1 is required" := by
  unfold contentBasedRecommendations sklearnCosineSimilarity
  rw [if_pos h]

/-! ## C2: the score blend -/

/-- C2: with the default content weight (1.0 from config.py), a candidate
found in the catalog under available goal matching scores
0.3 * similarity + 0.7 * goal_affinity with
goal_affinity = 0.6 * rule_score + 0.4 * semantic_score; without the
enhancement modules the score is the similarity alone and the goal-score
fallback is min(1, overlap / |user_goals|). -/
theorem final_score_blend (st : RecState) (p : UserProfile) (pid : String)
    (sim : ℚ) (prog : ProgramRec) :
    (st.enhancements = true →
      st.programs.find? (fun x => x.program_id == pid) = some prog →
      candidateScore st p DEFAULT_CONTENT_WEIGHT false pid sim =
        (3/10) * sim + (7/10) *
          ((6/10) * calculateGoalMatchScore p.goals prog.goal
            + (4/10) * st.semanticSim p.goals prog.goal))
    ∧ (st.enhancements = false →
        candidateScore st p DEFAULT_CONTENT_WEIGHT false pid sim = sim)
    ∧ (st.enhancements = false → p.goals ≠ [] → prog.goal ≠ [] →
        calculateEnhancedGoalScore st p.goals prog.goal =
          min 1 ((directMatchCount p.goals prog.goal : ℚ) / p.goals.length)) := by
  refine ⟨fun henh hfind => ?_, fun henh => ?_, fun henh hg1 hg2 => ?_⟩
  · unfold candidateScore calculateEnhancedGoalScore
    simp only [henh, if_true, hfind, DEFAULT_CONTENT_WEIGHT, Bool.false_eq_true,
      false_and, if_false, not_true, not_true_eq_false]
    ring
  · unfold candidateScore
    simp only [henh, Bool.false_eq_true, if_false, DEFAULT_CONTENT_WEIGHT,
      false_and]
    ring
  · unfold calculateEnhancedGoalScore
    simp only [henh, Bool.false_eq_true, not_false_eq_true, if_true]
    rw [if_neg (by simp [hg1, hg2])]

/-! ## C7: cache idempotence and fingerprint order-independence -/

lemma lookup_none_iff {β : Type} (l : List (String × β)) (k : String) :
    List.lookup k l = none ↔ ∀ e ∈ l, e.1 ≠ k := by
  induction l with
  | nil => simp
  | cons x xs ih =>
    obtain ⟨a, b⟩ := x
    rw [List.lookup_cons]
    cases hak : k == a with
    | true =>
      have : k = a := eq_of_beq hak
      subst this
      simp
    | false =>
      have hne : k ≠ a := fun hc => by simp [hc] at hak
      simp only [hak, ih]
      constructor
      · intro h e he
        rcases List.mem_cons.mp he with rfl | he2
        · exact fun hc => hne hc.symm
        · exact h e he2
      · intro h e he
        exact h e (List.mem_cons_of_mem _ he)

lemma lookup_append_none {β : Type} (l1 l2 : List (String × β)) (k : String)
    (h : List.lookup k l1 = none) :
    List.lookup k (l1 ++ l2) = List.lookup k l2 := by
  induction l1 with
  | nil => simp
  | cons x xs ih =>
    obtain ⟨a, b⟩ := x
    rw [List.lookup_cons] at h
    rw [List.cons_append, List.lookup_cons]
    cases hak : k == a with
    | true => simp [hak] at h
    | false =>
      simp only [hak] at h ⊢
      exact ih h

lemma lookup_none_contains_false {β : Type} (l : List (String × β)) (k : String)
    (h : List.lookup k l = none) : (l.map Prod.fst).contains k = false := by
  rw [Bool.eq_false_iff]
  intro hc
  rcases List.mem_map.mp ((contains_iff_mem _ _).mp hc) with ⟨e, he, hek⟩
  exact (lookup_none_iff l k).mp h e he hek

lemma lookup_store_fresh {α : Type} (st : List (String × α × ℤ))
    (key : String) (r : α) (now : ℤ) (h : List.lookup key st = none) :
    List.lookup key (cacheStore 1000 key r now st) = some (r, now) := by
  unfold cacheStore
  rw [lookup_none_contains_false st key h]
  simp only [Bool.false_eq_true, if_false]
  have hsing : List.lookup key [(key, r, now)] = some (r, now) := by
    rw [List.lookup_cons]
    simp
  by_cases hlen : 1000 < (st ++ [(key, r, now)]).length
  · rw [if_pos hlen]
    have h1 : 1 ≤ st.length := by
      simp only [List.length_append, List.length_singleton] at hlen
      omega
    rw [List.drop_append_of_le_length h1]
    rw [lookup_append_none _ _ _ ?_]
    · exact hsing
    · rw [lookup_none_iff] at h ⊢
      exact fun e he => h e (List.mem_of_mem_drop he)
  · rw [if_neg hlen]
    rw [lookup_append_none _ _ _ h]
    exact hsing

lemma sortFields_perm_eq (l1 l2 : List (String × String)) (hp : l1.Perm l2)
    (hn : (l1.map Prod.fst).Nodup) : sortFields l1 = sortFields l2 := by
  haveI hT : IsTotal (String × String) (fun a b => a.1 ≤ b.1) :=
    ⟨fun a b => le_total a.1 b.1⟩
  haveI hTr : IsTrans (String × String) (fun a b => a.1 ≤ b.1) :=
    ⟨fun _ _ _ hab hbc => le_trans hab hbc⟩
  haveI hA : IsAntisymm (String × String) (fun a b => a.1 < b.1) :=
    ⟨fun _ _ h1 h2 => absurd (lt_trans h1 h2) (lt_irrefl _)⟩
  have hn2 : (l2.map Prod.fst).Nodup := ((hp.map Prod.fst).nodup_iff).mp hn
  have key : ∀ l : List (String × String), (l.map Prod.fst).Nodup →
      (sortFields l).Sorted (fun a b => a.1 < b.1) := by
    intro l hl
    have hs : (sortFields l).Sorted (fun a b => a.1 ≤ b.1) :=
      List.sorted_insertionSort _ l
    have hnd : ((sortFields l).map Prod.fst).Nodup :=
      (((List.perm_insertionSort _ l).map Prod.fst).nodup_iff).mpr hl
    have hpw : (sortFields l).Pairwise (fun a b => a.1 ≠ b.1) :=
      List.pairwise_map.mp hnd
    have hand : (sortFields l).Pairwise
        (fun a b : String × String => a.1 ≤ b.1 ∧ a.1 ≠ b.1) :=
      List.pairwise_and_iff.mpr ⟨hs, hpw⟩
    exact hand.imp fun hab => lt_of_le_of_ne hab.1 hab.2
  apply List.eq_of_perm_of_sorted
    (((List.perm_insertionSort _ l1).trans hp).trans
      (List.perm_insertionSort _ l2).symm)
    (key l1 hn) (key l2 hn2)

/-- take n of an already n-truncated recommendCore result is itself. -/
lemma recommendCore_take (st : RecState) (p : UserProfile) (n : ℕ)
    (cw : Option ℚ) (div fb : Bool) :
    (recommendCore st p n cw div fb).take n = recommendCore st p n cw div fb := by
  unfold recommendCore
  rw [List.take_take, min_self]

/-- C7: with use_cache on, a second recommend call with the identical
profile and count inside the TTL window of the first returns the identical
result list; and the profile fingerprint is independent of the order in
which the profile fields are presented (json.dumps sort_keys). -/
theorem recommend_cache_idempotent :
    (∀ (st : RecState) (p : UserProfile) (n : ℕ) (cw : Option ℚ)
      (div fb : Bool) (t1 t2 : ℤ),
      List.lookup (cacheKeyOfProfile p) st.cache = none →
      0 ≤ t2 - t1 → t2 - t1 < st.cache_ttl →
      (recommend ((recommend st p n cw true div fb t1).2) p n cw true div fb t2).1
        = (recommend st p n cw true div fb t1).1)
    ∧ (∀ l1 l2 : List (String × String), l1.Perm l2 →
        (l1.map Prod.fst).Nodup → cacheKeyOfFields l1 = cacheKeyOfFields l2) := by
  constructor
  · intro st p n cw div fb t1 t2 hnone h0 hlt
    have hlk1 : cacheLookup st.cache_ttl t1 (cacheKeyOfProfile p) st.cache
        = (none, st.cache) := by
      unfold cacheLookup
      rw [hnone]
    have h1 : recommend st p n cw true div fb t1 =
        (recommendCore st p n cw div fb,
         { st with
            cache := cacheStore 1000 (cacheKeyOfProfile p)
              (recommendCore st p n cw div fb) t1 st.cache }) := by
      simp [recommend, hlk1]
    rw [h1]
    have hlk2 : cacheLookup st.cache_ttl t2 (cacheKeyOfProfile p)
        (cacheStore 1000 (cacheKeyOfProfile p)
          (recommendCore st p n cw div fb) t1 st.cache)
        = (some (recommendCore st p n cw div fb),
           cacheStore 1000 (cacheKeyOfProfile p)
             (recommendCore st p n cw div fb) t1 st.cache) := by
      unfold cacheLookup
      rw [lookup_store_fresh st.cache _ _ t1 hnone]
      simp only [if_pos hlt]
    simp only [recommend, hlk2]
    simp only [if_true]
    exact recommendCore_take st p n cw div fb
  · intro l1 l2 hp hn
    unfold cacheKeyOfFields
    rw [sortFields_perm_eq l1 l2 hp hn]

/-! ## C1: bounds on the returned match percentages -/

lemma rhe_le {q : ℚ} {c : ℤ} (h : q ≤ (c : ℚ)) : roundHalfEven q ≤ c := by
  unfold roundHalfEven
  have hf : ⌊q⌋ ≤ c := by
    have := Int.floor_le_floor h
    rwa [Int.floor_intCast] at this
  by_cases h1 : q - ⌊q⌋ < 1/2
  · rw [if_pos h1]
    exact hf
  · rw [if_neg h1]
    have hlt : (⌊q⌋ : ℚ) < q := by
      have hge : (1:ℚ)/2 ≤ q - ⌊q⌋ := not_lt.mp h1
      linarith
    have hfc : ⌊q⌋ < c := by
      exact_mod_cast lt_of_lt_of_le hlt h
    by_cases h2 : 1/2 < q - ⌊q⌋
    · rw [if_pos h2]
      omega
    · rw [if_neg h2]
      by_cases h3 : Even ⌊q⌋
      · rw [if_pos h3]
        exact hf
      · rw [if_neg h3]
        omega

lemma rhe_intCast (z : ℤ) : roundHalfEven ((z : ℚ)) = z := by
  unfold roundHalfEven
  rw [Int.floor_intCast]
  norm_num

lemma pyInt_le {q : ℚ} {c : ℤ} (h : q ≤ (c : ℚ)) : pyInt q ≤ c := by
  unfold pyInt
  by_cases h0 : 0 ≤ q
  · rw [if_pos h0]
    have := Int.floor_le_floor h
    rwa [Int.floor_intCast] at this
  · rw [if_neg h0]
    exact Int.ceil_le.mpr h

lemma pyInt_intCast (z : ℤ) : pyInt ((z : ℚ)) = z := by
  unfold pyInt
  by_cases h0 : (0:ℚ) ≤ (z : ℚ) <;>
    simp [h0, Int.floor_intCast, Int.ceil_intCast]

lemma max?_spec (l : List ℚ) (m : ℚ) (h : l.max? = some m) :
    m ∈ l ∧ ∀ x ∈ l, x ≤ m :=
  ⟨List.max?_mem (fun a b => max_choice a b) h,
   fun x hx =>
     (List.max?_le_iff (fun _ _ _ => max_le_iff) h).mp le_rfl x hx⟩

lemma insertionSort_head {β : Type} [LinearOrder β] (f : RecRow → β)
    (l : List RecRow) (x : RecRow) (xs : List RecRow)
    (h : List.insertionSort (fun a b => f b ≤ f a) l = x :: xs) :
    x ∈ l ∧ ∀ y ∈ l, f y ≤ f x := by
  haveI : IsTotal RecRow (fun a b => f b ≤ f a) :=
    ⟨fun a b => le_total (f b) (f a)⟩
  haveI : IsTrans RecRow (fun a b => f b ≤ f a) :=
    ⟨fun _ _ _ h1 h2 => le_trans h2 h1⟩
  have hs := List.sorted_insertionSort (fun a b => f b ≤ f a) l
  rw [h] at hs
  have hp := List.perm_insertionSort (fun a b => f b ≤ f a) l
  rw [h] at hp
  refine ⟨hp.subset (List.mem_cons_self x xs), fun y hy => ?_⟩
  rcases List.mem_cons.mp (hp.symm.subset hy) with rfl | hy3
  · exact le_rfl
  · exact (List.sorted_cons.mp hs).1 y hy3

lemma coreWithScores_snd_le (st : RecState) (p : UserProfile) (n : ℕ)
    (cw0 : Option ℚ) (div fb : Bool) (m : ℚ)
    (hm : coreMax st p n cw0 div fb = some m) :
    ∀ pr ∈ coreWithScores st p n cw0 div fb, pr.2 ≤ m := by
  intro pr hpr
  exact (max?_spec _ m hm).2 pr.2 (List.mem_map_of_mem Prod.snd hpr)

lemma coreRows_eq_none (st : RecState) (p : UserProfile) (n : ℕ)
    (cw0 : Option ℚ) (div fb : Bool)
    (hm : coreMax st p n cw0 div fb = none) :
    coreRows st p n cw0 div fb = [] := by
  unfold coreRows
  rw [hm]

lemma coreRows_eq_some (st : RecState) (p : UserProfile) (n : ℕ)
    (cw0 : Option ℚ) (div fb : Bool) (m : ℚ)
    (hm : coreMax st p n cw0 div fb = some m) :
    coreRows st p n cw0 div fb =
      if 0 < m then
        (coreWithScores st p n cw0 div fb).map fun pr =>
          mkRow pr.1 pr.2 (roundHalfEven (pr.2 / m * 100))
      else (coreWithScores st p n cw0 div fb).map fun pr => mkRow pr.1 pr.2 0 := by
  unfold coreRows
  rw [hm]

lemma coreRows_pct_le (st : RecState) (p : UserProfile) (n : ℕ)
    (cw0 : Option ℚ) (div fb : Bool) :
    ∀ r ∈ coreRows st p n cw0 div fb, r.match_percentage ≤ 100 := by
  intro r hr
  cases hm : coreMax st p n cw0 div fb with
  | none => rw [coreRows_eq_none st p n cw0 div fb hm] at hr; cases hr
  | some m =>
    rw [coreRows_eq_some st p n cw0 div fb m hm] at hr
    by_cases hpos : 0 < m
    · rw [if_pos hpos] at hr
      rcases List.mem_map.mp hr with ⟨pr, hpr, rfl⟩
      have hle : pr.2 ≤ m := coreWithScores_snd_le st p n cw0 div fb m hm pr hpr
      have harg : pr.2 / m * 100 ≤ ((100 : ℤ) : ℚ) := by
        have h1 : pr.2 / m ≤ 1 := (div_le_one hpos).mpr hle
        push_cast
        nlinarith
      exact rhe_le harg
    · rw [if_neg hpos] at hr
      rcases List.mem_map.mp hr with ⟨pr, hpr, rfl⟩
      norm_num [mkRow]

lemma coreRows_pct_zero (st : RecState) (p : UserProfile) (n : ℕ)
    (cw0 : Option ℚ) (div fb : Bool) (m : ℚ)
    (hm : coreMax st p n cw0 div fb = some m) (hle : m ≤ 0) :
    ∀ r ∈ coreRows st p n cw0 div fb, r.match_percentage = 0 := by
  intro r hr
  rw [coreRows_eq_some st p n cw0 div fb m hm, if_neg (not_lt.mpr hle)] at hr
  rcases List.mem_map.mp hr with ⟨pr, hpr, rfl⟩
  rfl

lemma coreRows_max_attained (st : RecState) (p : UserProfile) (n : ℕ)
    (cw0 : Option ℚ) (div fb : Bool) (m : ℚ)
    (hm : coreMax st p n cw0 div fb = some m) (hpos : 0 < m) :
    (∀ r ∈ coreRows st p n cw0 div fb, r.match_score ≤ m)
    ∧ (∀ r ∈ coreRows st p n cw0 div fb, r.match_score = m →
        r.match_percentage = 100)
    ∧ (∃ r ∈ coreRows st p n cw0 div fb, r.match_score = m) := by
  have hrw : coreRows st p n cw0 div fb =
      (coreWithScores st p n cw0 div fb).map fun pr =>
        mkRow pr.1 pr.2 (roundHalfEven (pr.2 / m * 100)) := by
    rw [coreRows_eq_some st p n cw0 div fb m hm, if_pos hpos]
  refine ⟨?_, ?_, ?_⟩
  · intro r hr
    rw [hrw] at hr
    rcases List.mem_map.mp hr with ⟨pr, hpr, rfl⟩
    exact coreWithScores_snd_le st p n cw0 div fb m hm pr hpr
  · intro r hr hsc
    rw [hrw] at hr
    rcases List.mem_map.mp hr with ⟨pr, hpr, rfl⟩
    have hpr2 : pr.2 = m := hsc
    show roundHalfEven (pr.2 / m * 100) = 100
    rw [hpr2, div_self (ne_of_gt hpos), one_mul]
    have : (100 : ℚ) = ((100 : ℤ) : ℚ) := by norm_num
    rw [this, rhe_intCast]
  · rcases List.mem_map.mp (max?_spec _ m hm).1 with ⟨pr, hpr, hpr2⟩
    refine ⟨mkRow pr.1 pr.2 (roundHalfEven (pr.2 / m * 100)), ?_, hpr2⟩
    rw [hrw]
    exact List.mem_map_of_mem _ hpr

lemma coreSorted_perm (st : RecState) (p : UserProfile) (n : ℕ)
    (cw0 : Option ℚ) (div fb : Bool) :
    (coreSorted st p n cw0 div fb).Perm (coreRows st p n cw0 div fb) :=
  List.perm_insertionSort _ _

lemma coreSorted_head_pct (st : RecState) (p : UserProfile) (n : ℕ)
    (cw0 : Option ℚ) (div fb : Bool) (m : ℚ)
    (hm : coreMax st p n cw0 div fb = some m) (hpos : 0 < m)
    (x : RecRow) (xs : List RecRow)
    (h : coreSorted st p n cw0 div fb = x :: xs) :
    x.match_percentage = 100 := by
  obtain ⟨hle, hpct, r0, hr0, hr0m⟩ :=
    coreRows_max_attained st p n cw0 div fb m hm hpos
  have hh := insertionSort_head (fun r => r.match_score) _ x xs h
  have hxm : x.match_score = m :=
    le_antisymm (hle x hh.1) (hr0m ▸ hh.2 r0 hr0)
  exact hpct x hh.1 hxm

lemma penRow_pct_le (d : ℚ) (h0 : 0 ≤ d) (h1 : d ≤ 1) (b1 b2 b3 : Bool)
    (r : RecRow) (hr : r.match_percentage ≤ 100) :
    (penRow d b1 b2 b3 r).match_percentage ≤ 100 := by
  unfold penRow
  show pyInt ((r.match_percentage : ℚ) * _) ≤ 100
  have hF : 0 ≤ ((if b1 then 1 - d else 1) * (if b2 then 1 - d else 1) *
      (if b3 then 1 - d * (1/2) else 1) : ℚ)
      ∧ ((if b1 then 1 - d else 1) * (if b2 then 1 - d else 1) *
      (if b3 then 1 - d * (1/2) else 1) : ℚ) ≤ 1 := by
    cases b1 <;> cases b2 <;> cases b3 <;> simp <;> constructor <;> nlinarith
  have harg : (r.match_percentage : ℚ) *
      ((if b1 then 1 - d else 1) * (if b2 then 1 - d else 1) *
       (if b3 then 1 - d * (1/2) else 1)) ≤ ((100 : ℤ) : ℚ) := by
    have hc : (r.match_percentage : ℚ) ≤ 100 := by exact_mod_cast hr
    push_cast
    rcases le_or_lt 0 ((r.match_percentage : ℚ)) with hnn | hneg
    · nlinarith [hF.1, hF.2]
    · nlinarith [hF.1, hF.2]
  exact pyInt_le harg

lemma penRow_pct_zero (d : ℚ) (b1 b2 b3 : Bool) (r : RecRow)
    (hr : r.match_percentage = 0) :
    (penRow d b1 b2 b3 r).match_percentage = 0 := by
  unfold penRow
  show pyInt ((r.match_percentage : ℚ) * _) = 0
  rw [hr]
  norm_num [pyInt]

lemma penRow_none (d : ℚ) (r : RecRow) : penRow d false false false r = r := by
  unfold penRow
  cases r
  simp only [RecRow.mk.injEq, and_true, true_and]
  norm_num
  exact pyInt_intCast _

lemma diversifyWalk_cons_eq (d : ℚ) (r : RecRow) (rest : List RecRow)
    (ss sg se : List String) :
    diversifyWalk d (r :: rest) ss sg se =
      penRow d (ss.contains r.training_style) (sg.contains r.primary_goal)
        (se.contains r.equipment) r ::
      diversifyWalk d rest (r.training_style :: ss) (r.primary_goal :: sg)
        (r.equipment :: se) := by
  rw [diversifyWalk]
  rw [step_eq_penRow]

lemma diversifyWalk_pct_le (d : ℚ) (h0 : 0 ≤ d) (h1 : d ≤ 1) :
    ∀ (recs : List RecRow) (ss sg se : List String),
      (∀ r ∈ recs, r.match_percentage ≤ 100) →
      ∀ r ∈ diversifyWalk d recs ss sg se, r.match_percentage ≤ 100 := by
  intro recs
  induction recs with
  | nil => intro ss sg se _ r hr; cases hr
  | cons x rest ih =>
    intro ss sg se hall r hr
    rw [diversifyWalk_cons_eq] at hr
    rcases List.mem_cons.mp hr with rfl | hr2
    · exact penRow_pct_le d h0 h1 _ _ _ x (hall x (List.mem_cons_self x rest))
    · exact ih _ _ _ (fun y hy => hall y (List.mem_cons_of_mem x hy)) r hr2

lemma diversifyWalk_pct_zero (d : ℚ) :
    ∀ (recs : List RecRow) (ss sg se : List String),
      (∀ r ∈ recs, r.match_percentage = 0) →
      ∀ r ∈ diversifyWalk d recs ss sg se, r.match_percentage = 0 := by
  intro recs
  induction recs with
  | nil => intro ss sg se _ r hr; cases hr
  | cons x rest ih =>
    intro ss sg se hall r hr
    rw [diversifyWalk_cons_eq] at hr
    rcases List.mem_cons.mp hr with rfl | hr2
    · exact penRow_pct_zero d _ _ _ x (hall x (List.mem_cons_self x rest))
    · exact ih _ _ _ (fun y hy => hall y (List.mem_cons_of_mem x hy)) r hr2

lemma sortByPctDesc_head (l : List RecRow) (x : RecRow) (xs : List RecRow)
    (h : sortByPctDesc l = x :: xs)
    (hall : ∀ y ∈ l, y.match_percentage ≤ 100)
    (hex : ∃ y ∈ l, y.match_percentage = 100) :
    x.match_percentage = 100 := by
  have hh := insertionSort_head (fun r => r.match_percentage) l x xs h
  rcases hex with ⟨y, hy, hy100⟩
  exact le_antisymm (hall x hh.1) (hy100 ▸ hh.2 y hy)

lemma head?_map_take {γ : Type} (g : RecRow → γ) (l : List RecRow) (n : ℕ)
    (hn : n ≠ 0) : ((l.map g).take n).head? = l.head?.map g := by
  cases l with
  | nil => simp
  | cons x xs =>
    cases n with
    | zero => exact absurd rfl hn
    | succ k => simp

lemma coreFinal_pct_le (st : RecState) (p : UserProfile) (n : ℕ)
    (cw : Option ℚ) (div fb : Bool) :
    ∀ r ∈ coreFinal st p n cw div fb, r.match_percentage ≤ 100 := by
  intro r hr
  have hsorted : ∀ y ∈ coreSorted st p n cw div fb, y.match_percentage ≤ 100 :=
    fun y hy => coreRows_pct_le st p n cw div fb y
      ((coreSorted_perm st p n cw div fb).subset hy)
  unfold coreFinal at hr
  by_cases hc : div = true ∧ n < (coreSorted st p n cw div fb).length
  · rw [if_pos hc] at hr
    unfold diversifyRecommendations sortByPctDesc at hr
    have hr2 := (List.perm_insertionSort _ _).subset hr
    exact diversifyWalk_pct_le (3/10) (by norm_num) (by norm_num)
      (coreSorted st p n cw div fb) [] [] [] hsorted r hr2
  · rw [if_neg hc] at hr
    exact hsorted r hr

lemma coreFinal_pct_zero (st : RecState) (p : UserProfile) (n : ℕ)
    (cw : Option ℚ) (div fb : Bool) (m : ℚ)
    (hm : coreMax st p n cw div fb = some m) (hle : m ≤ 0) :
    ∀ r ∈ coreFinal st p n cw div fb, r.match_percentage = 0 := by
  intro r hr
  have hsorted : ∀ y ∈ coreSorted st p n cw div fb, y.match_percentage = 0 :=
    fun y hy => coreRows_pct_zero st p n cw div fb m hm hle y
      ((coreSorted_perm st p n cw div fb).subset hy)
  unfold coreFinal at hr
  by_cases hc : div = true ∧ n < (coreSorted st p n cw div fb).length
  · rw [if_pos hc] at hr
    unfold diversifyRecommendations sortByPctDesc at hr
    have hr2 := (List.perm_insertionSort _ _).subset hr
    exact diversifyWalk_pct_zero (3/10) (coreSorted st p n cw div fb)
      [] [] [] hsorted r hr2
  · rw [if_neg hc] at hr
    exact hsorted r hr

lemma coreFinal_head_pct (st : RecState) (p : UserProfile) (n : ℕ)
    (cw : Option ℚ) (div fb : Bool) (m : ℚ)
    (hm : coreMax st p n cw div fb = some m) (hpos : 0 < m)
    (x : RecRow) (xs : List RecRow)
    (h : coreFinal st p n cw div fb = x :: xs) :
    x.match_percentage = 100 := by
  have hsorted : ∀ y ∈ coreSorted st p n cw div fb, y.match_percentage ≤ 100 :=
    fun y hy => coreRows_pct_le st p n cw div fb y
      ((coreSorted_perm st p n cw div fb).subset hy)
  unfold coreFinal at h
  by_cases hc : div = true ∧ n < (coreSorted st p n cw div fb).length
  · rw [if_pos hc] at h
    unfold diversifyRecommendations at h
    have hne : 0 < (coreSorted st p n cw div fb).length :=
      lt_of_le_of_lt (Nat.zero_le n) hc.2
    obtain ⟨hd, tl, hcons⟩ : ∃ hd tl, coreSorted st p n cw div fb = hd :: tl := by
      cases hcs : coreSorted st p n cw div fb with
      | nil => rw [hcs] at hne; cases hne
      | cons a b => exact ⟨a, b, rfl⟩
    have hhd : hd.match_percentage = 100 :=
      coreSorted_head_pct st p n cw div fb m hm hpos hd tl hcons
    have hmem : hd ∈ diversifyWalk (3/10) (coreSorted st p n cw div fb) [] [] [] := by
      rw [hcons, diversifyWalk_cons_eq]
      have : ([] : List String).contains hd.training_style = false := rfl
      rw [this]
      rw [show ([] : List String).contains hd.primary_goal = false from rfl]
      rw [show ([] : List String).contains hd.equipment = false from rfl]
      rw [penRow_none]
      exact List.mem_cons_self _ _
    apply sortByPctDesc_head _ x xs h
    · exact fun y hy => diversifyWalk_pct_le (3/10) (by norm_num) (by norm_num)
        (coreSorted st p n cw div fb) [] [] [] hsorted y hy
    · exact ⟨hd, hmem, hhd⟩
  · rw [if_neg hc] at h
    exact coreSorted_head_pct st p n cw div fb m hm hpos x xs h

/-- C1 amended: recommend returns at most num_recommendations rows and every
match_percentage is an integer at most 100; when the maximum blended score
is positive the highest-ranked row has match_percentage exactly 100, and
when it is nonpositive every returned match_percentage is 0 (so rows with
negative blended scores can carry negative percentages and the top
percentage need not be 100). -/
theorem recommend_result_bounds (st : RecState) (p : UserProfile) (n : ℕ)
    (cw : Option ℚ) (div fb : Bool) :
    (recommendCore st p n cw div fb).length ≤ n
    ∧ (∀ r ∈ recommendCore st p n cw div fb, r.match_percentage ≤ 100)
    ∧ (∀ m, coreMax st p n cw div fb = some m → 0 < m →
        ∀ r, (recommendCore st p n cw div fb).head? = some r →
          r.match_percentage = 100)
    ∧ (∀ m, coreMax st p n cw div fb = some m → m ≤ 0 →
        ∀ r ∈ recommendCore st p n cw div fb, r.match_percentage = 0) := by
  refine ⟨?_, ?_, ?_, ?_⟩
  · exact List.length_take_le n _
  · intro r hr
    unfold recommendCore at hr
    rcases List.mem_map.mp (List.mem_of_mem_take hr) with ⟨x, hx, rfl⟩
    exact coreFinal_pct_le st p n cw div fb x hx
  · intro m hm hpos r hr
    unfold recommendCore at hr
    cases hn : n with
    | zero => rw [hn] at hr; simp at hr
    | succ k =>
      subst hn
      rw [head?_map_take toResultRow _ (k+1) (Nat.succ_ne_zero k)] at hr
      cases hf : coreFinal st p (k+1) cw div fb with
      | nil => rw [hf] at hr; simp at hr
      | cons x xs =>
        rw [hf] at hr
        have hr2 : toResultRow x = r := by simpa using hr
        have hx := coreFinal_head_pct st p (k+1) cw div fb m hm hpos x xs hf
        rw [← hr2]
        exact hx
  · intro m hm hle r hr
    unfold recommendCore at hr
    rcases List.mem_map.mp (List.mem_of_mem_take hr) with ⟨x, hx, rfl⟩
    exact coreFinal_pct_zero st p n cw div fb m hm hle x hx

/-! ### C1 counterexample state: a catalog whose second program vector has
cosine similarity -1 with the user vector. -/

/-- Inner product; equals the cosine similarity for unit-norm vectors, which
is what the sklearn kernel computes on the concrete vectors below. -/
def dotQ (u v : List ℚ) : ℚ := (List.zipWith (fun a b => a * b) u v).sum

/-- A transformer fitted so that the demo profile encodes to [1,0,0,0,0]. -/
def cexTransformer : Transformer :=
  { levelCats := ["Intermediate"], goalCats := [], equipmentCats := [],
    styleCats := [],
    lengthMean := 12, lengthScale := 1, timeMean := 55, timeScale := 1,
    freqMean := 4, freqScale := 1, intensityMean := 7, intensityScale := 1 }

def cexProgram (pid : String) : ProgramRec :=
  { program_id := pid, title := pid, primary_level := "Intermediate",
    primary_goal := "Strength", goal := ["Strength"], equipment := "Full Gym",
    program_length := 12, time_per_workout := 60, workout_frequency := 4,
    training_style := "Full Body" }

/-- A loaded basic-mode recommender (no enhancement modules) whose catalog
holds the program vectors [1,0,0,0,0] and [-1,0,0,0,0]: the second has true
cosine similarity -1 with the user vector [1,0,0,0,0]. -/
def cexState : RecState :=
  { programs := [cexProgram "A", cexProgram "B"],
    features := [("A", [1, 0, 0, 0, 0]), ("B", [-1, 0, 0, 0, 0])],
    transformer := cexTransformer,
    content_weight := 1, collab_weight := 0,
    enhancements := false,
    semanticSim := fun _ _ => 0,
    cosSim := dotQ,
    feedback := [], cache := [], cache_ttl := 3600 }

def cexProfile : UserProfile :=
  { fitness_level := "Intermediate", goals := ["Strength"],
    equipment := "Full Gym", preferred_duration := none,
    preferred_frequency := none, preferred_style := none, user_id := none }

/-- C1 counterexample: on this loaded model and valid profile, recommend
returns match percentages [100, -100]; -100 is outside [0, 100], refuting
the claim that every returned match_percentage lies in [0, 100]. -/
theorem recommend_negative_percentage :
    ((recommend cexState cexProfile 2 none false false false 0).1).map
      (fun r => r.match_percentage) = [100, -100] := by
  simp [recommend, recommendCore, coreFinal, coreSorted, coreRows, coreMax,
    coreWithScores, contentSelection, contentSimilarities, candidateScore, cexState,
    cexProfile, cexTransformer, dotQ, simAt, featIdAt, dictGet, mkRow,
    toResultRow, encodeUserFeatures, processUserFeatures, oneHot, scaleVal,
    calculateIntensityScore, DURATION_MAP, LEVEL_TO_LENGTH, LEVEL_TO_INTENSITY,
    TRAINING_STYLE_MAP, List.lookup, List.insertionSort, List.orderedInsert,
    roundHalfEven, cexProgram]
  norm_num [Int.fract]

/-- Witness for C1 at the concrete two-program state: the hypotheses of
recommend_result_bounds hold there with maximum score 1 and the head row is
the 100-percent match. -/
theorem recommend_result_bounds_witness :
    (recommendCore cexState cexProfile 2 none false false).length ≤ 2
    ∧ ({ program_id := "A", title := "A", primary_level := "Intermediate",
         primary_goal := "Strength", equipment := "Full Gym",
         program_length := 12, time_per_workout := 60, workout_frequency := 4,
         training_style := "Full Body", match_percentage := 100 } :
         ResultRow).match_percentage = 100 := by
  constructor
  · exact (recommend_result_bounds cexState cexProfile 2 none false false).1
  · apply (recommend_result_bounds cexState cexProfile 2 none false false).2.2.1 1
    · simp [coreMax, coreWithScores, contentSelection, contentSimilarities, candidateScore,
        cexState, cexProfile, cexTransformer, dotQ, simAt, featIdAt, dictGet,
        encodeUserFeatures, processUserFeatures, oneHot, scaleVal,
        calculateIntensityScore, DURATION_MAP, LEVEL_TO_LENGTH,
        LEVEL_TO_INTENSITY, TRAINING_STYLE_MAP, List.lookup,
        List.insertionSort, List.orderedInsert, cexProgram]
    · norm_num
    · simp [recommendCore, coreFinal, coreSorted, coreRows, coreMax,
        coreWithScores, contentSelection, contentSimilarities, candidateScore, cexState,
        cexProfile, cexTransformer, dotQ, simAt, featIdAt, dictGet, mkRow,
        toResultRow, encodeUserFeatures, processUserFeatures, oneHot, scaleVal,
        calculateIntensityScore, DURATION_MAP, LEVEL_TO_LENGTH,
        LEVEL_TO_INTENSITY, TRAINING_STYLE_MAP, List.lookup,
        List.insertionSort, List.orderedInsert, roundHalfEven, cexProgram]

/-- A loaded state with the enhancement modules available. -/
def demoEnhState : RecState :=
  { cexState with enhancements := true }

/-- Witness for C2 at concrete states with and without the enhancement
modules. -/
theorem final_score_blend_witness :
    candidateScore demoEnhState cexProfile DEFAULT_CONTENT_WEIGHT false "A" 1 =
      (3/10) * 1 + (7/10) *
        ((6/10) * calculateGoalMatchScore cexProfile.goals (cexProgram "A").goal
          + (4/10) * demoEnhState.semanticSim cexProfile.goals
              (cexProgram "A").goal)
    ∧ candidateScore cexState cexProfile DEFAULT_CONTENT_WEIGHT false "A" (1/2)
        = 1/2
    ∧ calculateEnhancedGoalScore cexState cexProfile.goals (cexProgram "A").goal
        = min 1 ((directMatchCount cexProfile.goals (cexProgram "A").goal : ℚ) /
            cexProfile.goals.length) := by
  refine ⟨?_, ?_, ?_⟩
  · exact (final_score_blend demoEnhState cexProfile "A" 1 (cexProgram "A")).1
      rfl (by simp [demoEnhState, cexState, cexProgram, List.find?])
  · exact (final_score_blend cexState cexProfile "A" (1/2) (cexProgram "A")).2.1 rfl
  · exact (final_score_blend cexState cexProfile "A" (1/2) (cexProgram "A")).2.2
      rfl (by simp [cexProfile]) (by simp [cexProgram])

/-- Witness for C7: two cached calls on the concrete state agree, and the
fingerprint of a two-field profile dictionary ignores field order. -/
theorem recommend_cache_idempotent_witness :
    (recommend ((recommend cexState cexProfile 3 none true false false 0).2)
        cexProfile 3 none true false false 5).1
      = (recommend cexState cexProfile 3 none true false false 0).1
    ∧ cacheKeyOfFields [("b", "2"), ("a", "1")]
        = cacheKeyOfFields [("a", "1"), ("b", "2")] := by
  constructor
  · exact recommend_cache_idempotent.1 cexState cexProfile 3 none false false 0 5
      rfl (by norm_num) (by norm_num [cexState])
  · exact recommend_cache_idempotent.2 [("b", "2"), ("a", "1")]
      [("a", "1"), ("b", "2")] (List.Perm.swap ("a", "1") ("b", "2") [])
      (by decide)

/-- A loaded state with an empty program catalog. -/
def emptyCatalogState : RecState :=
  { cexState with programs := [], features := [] }

/-- Witness for C8 at the concrete empty-catalog state: the scorer errors
there rather than returning a list. -/
theorem content_recs_empty_catalog_raises_witness :
    contentBasedRecommendations emptyCatalogState [1] 5 =
      Except.error
        "Found array with 0 sample(s) while a minimum of 1 is required" :=
  content_recs_empty_catalog_raises emptyCatalogState [1] 5 rfl

end WorkoutWizard
